import Mathlib

/-!
# Verification of the AutomatizaSimuATP pipeline

A shallow embedding, in Lean 4, of the parts of the AutomatizaSimuATP
repository that its specification talks about:

* `f_readpl4.readpl4` — the PL4 binary waveform decoder (header arithmetic,
  channel descriptors, data region);
* `f_readpl4._calc_n_remover` / `_apply_cut_full_dict` /
  `_apply_cut_interest_dict` — the optional sample-cropping step (the same
  logic is duplicated inside `save_results_parquet` and in
  `step3_Pl42Parquet.Pl4Processor`);
* `f_readpl4.save_results_parquet` — the parquet exporter, in both its
  "full" and its "variables of interest" modes, including the duplicate
  column-label renaming;
* `RodaeCriaPl4.run_atp_arquivo` / `main` — the ATP job runner (temporary
  working directory lifecycle, quarantine, final sweep) and its concurrency
  admission;
* `Pl4paraMatlab._wait_for_mat_creation_and_stabilize` /
  `_find_generated_mat_in_dir` / `_run_pl42mat_like_matlab` — the PL4→MAT
  converter's artifact polling, size stabilization, and stale-artifact
  deletion.

Modelling conventions:

* A binary file is a `List Nat` of byte values; reads past the end behave
  like the `struct`/`mmap` failures of the Python code and are modelled by
  explicit length guards returning `none`.
* Python `float` values are modelled as `ℚ`.  IEEE-754 binary32 bit
  patterns are decoded exactly by `f32val`; infinities and NaNs (exponent
  field 255) decode to `none`.  Stored waveform samples are kept as their
  raw little-endian 32-bit words, since no specified property inspects a
  sample's numeric value.
* Python `int(x)` on a float truncates toward zero: `pyInt`.
* Python `str.lower()` on the ASCII strings used here: `pyLower`.
* Raising an exception is modelled by `Except`/`Option`; a filesystem write
  is modelled by the `.ok` payload of the exporter, so an `.error` result
  means nothing was written.
-/

namespace AutomatizaSimuATP

/-! ## Byte-level primitives (`f_readpl4.readpl4`) -/

/-- One byte of the memory-mapped file (`pl4[i]`). -/
def byteAt (f : List Nat) (i : Nat) : Nat := f.getD i 0

/-- `struct.unpack("<L", pl4[off:off+4])[0]`: a 4-byte little-endian
unsigned integer. -/
def readU32LE (f : List Nat) (off : Nat) : Nat :=
  byteAt f off + 256 * byteAt f (off + 1) + 65536 * byteAt f (off + 2) +
    16777216 * byteAt f (off + 3)

/-- The exact rational value of an IEEE-754 binary32 bit pattern, as read by
`struct.unpack("<f", ...)`.  Patterns with exponent field 255 (infinities
and NaNs) are mapped to `none`. -/
def f32val (b : Nat) : Option ℚ :=
  let s : Nat := b / 2 ^ 31 % 2
  let e : Nat := b / 2 ^ 23 % 2 ^ 8
  let m : Nat := b % 2 ^ 23
  if e = 255 then none
  else
    let mag : ℚ :=
      if e = 0 then ((m : ℚ) / 2 ^ 23) * 2 ^ (-126 : ℤ)
      else (1 + (m : ℚ) / 2 ^ 23) * 2 ^ ((e : ℤ) - 127)
    some (if s = 1 then -mag else mag)

/-- Python's `int(x)` for a float `x`: truncation toward zero. -/
def pyInt (q : ℚ) : Int := q.num.tdiv q.den

/-- Python's `str.lower()` (ASCII). -/
def pyLower (s : String) : String := ⟨s.data.map Char.toLower⟩

/-! ## The PL4 header (`readpl4`, lines 136–156) -/

/-- The `misc` dictionary of `readpl4`. -/
structure Pl4Misc where
  /-- `deltat`: sampling interval, `<f` at offset 40. -/
  deltat : Option ℚ
  /-- `nvar`: channel count, `<L` at offset 48, divided by 2. -/
  nvar : Nat
  /-- `pl4size`: declared payload size, `<L` at offset 56, minus 1. -/
  pl4size : Int
  /-- `steps`: derived record count. -/
  steps : Int
  /-- `tmax`: derived maximum time. -/
  tmax : Option ℚ

/-- The header computation of `readpl4`:

    misc["deltat"]  = struct.unpack("<f", pl4[40:44])[0]
    misc["nvar"]    = struct.unpack("<L", pl4[48:52])[0] // 2
    misc["pl4size"] = struct.unpack("<L", pl4[56:60])[0] - 1
    misc["steps"]   = (pl4size - 5*16 - nvar*16) // ((nvar + 1) * 4)
    misc["tmax"]    = (steps - 1) * deltat

Python `//` on ints is floor division, hence `Int.fdiv`. -/
def readpl4Misc (f : List Nat) : Pl4Misc :=
  let deltat := f32val (readU32LE f 40)
  let nvar := readU32LE f 48 / 2
  let pl4size : Int := (readU32LE f 56 : Int) - 1
  let steps : Int := (pl4size - 5 * 16 - (nvar : Int) * 16).fdiv (((nvar : Int) + 1) * 4)
  { deltat := deltat
    nvar := nvar
    pl4size := pl4size
    steps := steps
    tmax := deltat.map (fun d => ((steps - 1 : Int) : ℚ) * d) }

/-- Python's `int(b)` on the single byte `b` of the `1c` field: succeeds
exactly when the byte is an ASCII digit. -/
def asciiInt1 (b : Nat) : Option Nat :=
  if 48 ≤ b ∧ b ≤ 57 then some (b - 48) else none

/-- All channel TYPE bytes (at `5*16 + i*16 + 3`) parse as digits, so the
variable-header loop of `readpl4` does not raise. -/
def pl4TypesOk (f : List Nat) : Bool :=
  ((List.range (readpl4Misc f).nvar).map
    (fun i => asciiInt1 (byteAt f (5 * 16 + i * 16 + 3)))).all Option.isSome

/-- `expsize = (5 + nvar) * 16 + steps * (nvar + 1) * 4`. -/
def pl4Expsize (f : List Nat) : Int :=
  (5 + ((readpl4Misc f).nvar : Int)) * 16 +
    (readpl4Misc f).steps * (((readpl4Misc f).nvar : Int) + 1) * 4

/-- `nullbytes`: extra padding tolerated between the expected region size
and the declared payload size, clamped to ≥ 0. -/
def pl4Nullbytes (f : List Nat) : Int :=
  if pl4Expsize f < (readpl4Misc f).pl4size then (readpl4Misc f).pl4size - pl4Expsize f else 0

/-- Data region offset: `(5 + nvar) * 16 + nullbytes`. -/
def pl4DataOffset (f : List Nat) : Int :=
  (5 + ((readpl4Misc f).nvar : Int)) * 16 + pl4Nullbytes f

/-- One past the last byte the `np.memmap` read touches. -/
def pl4DataEnd (f : List Nat) : Int :=
  pl4DataOffset f + (readpl4Misc f).steps * (((readpl4Misc f).nvar : Int) + 1) * 4

/-- One decoded channel descriptor (`3x1c6s6s` at `5*16 + i*16`).  The
`FROM`/`TO` name bytes are kept raw; the purely cosmetic label strings the
Python code derives from them cannot fail and are not specified. -/
structure Pl4VarInfo where
  typeDigit : Nat
  fromBytes : List Nat
  toBytes : List Nat

/-- The decoded dataset returned by `readpl4`.  `time` and `data` hold the
raw little-endian 32-bit words of the float32 samples (`f32val` gives their
numeric reading). -/
structure Pl4Result where
  misc : Pl4Misc
  varInfo : List Pl4VarInfo
  time : List Nat
  data : List (List Nat)

/-- `f_readpl4.readpl4`, fallibility included: `none` models the Python
call raising (short file for the fixed header, short file for a channel
descriptor, a non-digit TYPE byte under `int(...)`, a negative `memmap`
shape, or a `memmap` that would extend past the end of the file).  Note
there is no corruption check on `steps` itself: a non-integral quotient is
silently floored. -/
def readpl4 (f : List Nat) : Option Pl4Result :=
  if f.length < 60 then none
  else if f.length < 5 * 16 + (readpl4Misc f).nvar * 16 then none
  else if ¬ pl4TypesOk f = true then none
  else if (readpl4Misc f).steps < 0 then none
  else if (f.length : Int) < pl4DataEnd f then none
  else
    some
      { misc := readpl4Misc f
        varInfo :=
          (List.range (readpl4Misc f).nvar).map (fun i =>
            { typeDigit := (asciiInt1 (byteAt f (5 * 16 + i * 16 + 3))).getD 0
              fromBytes := (List.range 6).map (fun j => byteAt f (5 * 16 + i * 16 + 4 + j))
              toBytes := (List.range 6).map (fun j => byteAt f (5 * 16 + i * 16 + 10 + j)) })
        time :=
          (List.range (readpl4Misc f).steps.toNat).map (fun r =>
            readU32LE f ((pl4DataOffset f).toNat + r * ((readpl4Misc f).nvar + 1) * 4))
        data :=
          (List.range (readpl4Misc f).nvar).map (fun i =>
            (List.range (readpl4Misc f).steps.toNat).map (fun r =>
              readU32LE f
                ((pl4DataOffset f).toNat + (r * ((readpl4Misc f).nvar + 1) + (i + 1)) * 4))) }

/-- A minimal well-formed 60-byte PL4 header: `deltat = 1.0f`
(bytes 40..43 = 00 00 80 3F), raw channel field 2 (so `nvar = 1`), raw size
field 105 (so `pl4size = 104` and `steps = (104 - 96) / 8 = 1` exactly). -/
def pl4HeaderExample : List Nat :=
  (List.range 60).map fun i =>
    if i = 42 then 128 else if i = 43 then 63 else
    if i = 48 then 2 else if i = 56 then 105 else 0

/-- A 108-byte PL4 file whose header division is *not* exact:
`nvar = 1`, `pl4size = 108`, so `pl4size - 5*16 - nvar*16 = 12` is not a
multiple of `(nvar+1)*4 = 8`; `steps` floors to 1.  Byte 83 is the ASCII
digit `4` so the channel TYPE parses, and the file is long enough for the
data read (`expsize = 104`, `nullbytes = 4`, data at 100..107). -/
def pl4NonIntegralExample : List Nat :=
  (List.range 108).map fun i =>
    if i = 48 then 2 else if i = 56 then 109 else if i = 83 then 52 else 0

/-! ## The sample-cropping step (`f_readpl4._calc_n_remover`,
`_apply_cut_full_dict`; duplicated in `save_results_parquet` and in
`Pl4Processor._n_remover` / `_recortar_resultado`) -/

/-- `_calc_n_remover`: `n = int(fs_por_ciclo * float(freq) * float(t))`,
clamped to ≥ 0 by `max(n, 0)`.  `int()` truncates toward zero. -/
def nRemover (fs : Int) (freq t : ℚ) : Int :=
  max (pyInt ((fs : ℚ) * freq * t)) 0

/-- The "full" result dictionary `{'time','data','labels',...}` consumed by
`_apply_cut_full_dict` and by the full mode of `save_results_parquet`.
`hasTime`/`hasData` model the `"time" in d` / `"data" in d` key tests;
`delta_t = none` models a dictionary without the `"delta_t"` key.  `time`
is a 1-D vector by construction (`np.asarray` of the decoder's time column
is always 1-D); `data` is 2-D exactly when its rows are non-empty and of
equal length, which is what `ndim2` tests. -/
structure FullDict where
  hasTime : Bool
  hasData : Bool
  time : List ℚ
  data : List (List ℚ)
  labels : List String
  n_samples : Int
  delta_t : Option ℚ
  tmax : Option ℚ
  deriving DecidableEq

/-- `np.asarray(rows).ndim == 2`: non-empty with rectangular rows (a ragged
nested list becomes a 1-D object array; `np.asarray([])` is 1-D). -/
def ndim2 (m : List (List ℚ)) : Bool :=
  match m with
  | [] => false
  | r :: rs => rs.all (fun x => x.length == r.length)

/-- `data.shape[1]` of a rectangular row-major matrix. -/
def matCols (m : List (List ℚ)) : Nat :=
  match m with
  | [] => 0
  | r :: _ => r.length

/-- `_apply_cut_full_dict` (f_readpl4.py lines 36–80, repeated verbatim
inside `save_results_parquet` and as `Pl4Processor._recortar_resultado`):
drops the first `n` (edge `"inicio"`, the default branch) or last `n`
(edge `"fim"`) samples from the time vector and every matrix row, then
recomputes `n_samples` and — when the `delta_t` key is present — `tmax`.
Any disabled, missing-key, ill-shaped or out-of-range situation returns
the input unchanged. -/
def applyCutFullDict (remover : Bool) (fs : Int) (freq t : ℚ) (rde : String)
    (d : FullDict) : FullDict :=
  if ¬ (remover = true ∧ 0 < t) then d
  else if ¬ (d.hasTime = true ∧ d.hasData = true) then d
  else if ¬ (ndim2 d.data = true ∧ matCols d.data = d.time.length) then d
  else
    if nRemover fs freq t ≤ 0 ∨ (d.time.length : Int) ≤ nRemover fs freq t then d
    else
      let n := (nRemover fs freq t).toNat
      let timeNew :=
        if pyLower rde = "fim" then d.time.take (d.time.length - n) else d.time.drop n
      let dataNew :=
        if pyLower rde = "fim" then d.data.map (fun r => r.take (r.length - n))
        else d.data.map (fun r => r.drop n)
      { d with
        time := timeNew
        data := dataNew
        n_samples := (timeNew.length : Int)
        tmax :=
          match d.delta_t with
          | some dt => some (((timeNew.length : Int) - 1 : Int) * dt)
          | none => d.tmax }

/-! ## Duplicate-label renaming and the parquet exporter
(`f_readpl4.save_results_parquet`) -/

/-- The renaming loop of `save_results_parquet`: `seen` is the running
`seen` dictionary (`seen.get(lbl, 0)`), `all` the whole label list whose
`Counter` provides the duplicate test.  Every occurrence of a label whose
total count exceeds 1 — including the first — is renamed to
`lbl_<occurrence index>`. -/
def dedupGo (all : List String) (seen : String → Nat) : List String → List String
  | [] => []
  | l :: ls =>
    if 1 < all.count l then
      (l ++ "_" ++ toString (seen l + 1)) ::
        dedupGo all (fun x => if x = l then seen l + 1 else seen x) ls
    else
      l :: dedupGo all seen ls

/-- Column-label deduplication: labels are rewritten only when some label
repeats (`if any(v > 1 for v in counts.values())`). -/
def dedupLabels (labels : List String) : List String :=
  if labels.any (fun l => decide (1 < labels.count l)) then
    dedupGo labels (fun _ => 0) labels
  else labels

/-- Full ("case A") mode of `save_results_parquet`: optional cut, label
deduplication, then `pd.DataFrame(data.T, columns=labels)` with the time
column inserted first and the frame written to parquet.  The `.ok` payload
`(columns, rows)` models the successful `to_parquet` write together with
the function's return value `(path, df.shape[0], list(df.columns))`; the
two `.error` branches model pandas raising when the label count does not
match the matrix height or the time length does not match the matrix
width, which the function re-raises.  An `.error` result therefore means
no file was written. -/
def saveResultsParquetFull (remover : Bool) (fs : Int) (freq t : ℚ) (rde : String)
    (d : FullDict) : Except String (List String × Nat) :=
  let d1 := applyCutFullDict remover fs freq t rde d
  let time := if d1.hasTime then d1.time else []
  let labels := dedupLabels d1.labels
  if labels.length ≠ d1.data.length then
    Except.error "Shape of passed values does not match columns"
  else if time.length ≠ matCols d1.data then
    Except.error "Length of inserted time column does not match frame height"
  else Except.ok ("time" :: labels, matCols d1.data)

/-- The "variables of interest" dictionary `{'time'/'tempo': .., name: ..}`
of the selected-export mode: an insertion-ordered association list.  All
values are 1-D series (the shape every caller in the repository supplies).
-/
structure InterestDict where
  entries : List (String × List ℚ)
  deriving DecidableEq

/-- `k in d` for the dictionary. -/
def hasKey (d : InterestDict) (k : String) : Bool :=
  d.entries.any (fun e => e.1 == k)

/-- `d[k]` (first binding; Python dict keys are unique). -/
def dictGet (d : InterestDict) (k : String) : List ℚ :=
  ((d.entries.find? (fun e => e.1 == k)).map Prod.snd).getD []

/-- `_apply_cut_interest_dict`: same gate and count as the full cut, but
applied to every value whose length equals the time vector's length;
other values are kept unchanged. -/
def applyCutInterestDict (remover : Bool) (fs : Int) (freq t : ℚ) (rde : String)
    (d : InterestDict) : InterestDict :=
  if ¬ (remover = true ∧ 0 < t) then d
  else
    match (if hasKey d "time" then some "time"
           else if hasKey d "tempo" then some "tempo" else none) with
    | none => d
    | some tk =>
      let N := (dictGet d tk).length
      if nRemover fs freq t ≤ 0 ∨ (N : Int) ≤ nRemover fs freq t then d
      else
        let n := (nRemover fs freq t).toNat
        ⟨d.entries.map (fun e =>
          if e.2.length = N then
            (e.1, if pyLower rde = "fim" then e.2.take (e.2.length - n) else e.2.drop n)
          else e)⟩

/-- The single-quote character of the Python error message. -/
def sq : String := String.singleton (Char.ofNat 39)

/-- The `ValueError` message
`f"Tamanho inconsistente entre '{k}' ({len(v)}) e '{time_key}' ({len(time)})."`
raised by the selected-export mode; the spec calls this error
`LengthMismatch`. -/
def lengthMsg (k : String) (lv : Nat) (tk : String) (lt : Nat) : String :=
  "Tamanho inconsistente entre " ++ sq ++ k ++ sq ++ " (" ++ toString lv ++ ") e " ++
    sq ++ tk ++ sq ++ " (" ++ toString lt ++ ")."

/-- The first series (in dictionary order, time key excluded) whose length
differs from the time vector's — the one at which the export loop raises. -/
def firstBadSeries (d : InterestDict) (tk : String) : Option String :=
  ((d.entries.map Prod.fst).filter (fun k => k != tk)).find?
    (fun k => (dictGet d k).length != (dictGet d tk).length)

/-- Selected ("case B") mode of `save_results_parquet`: optional cut, time
key lookup (`KeyError` when neither `time` nor `tempo` exists), a length
check on every series that raises `ValueError` naming the first offending
series *before* anything is written, duplicate-column renaming, and only
then the parquet write (the `.ok` payload, as in the full mode). -/
def saveResultsParquetInterest (remover : Bool) (fs : Int) (freq t : ℚ) (rde : String)
    (d : InterestDict) : Except String (List String × Nat) :=
  let d1 := applyCutInterestDict remover fs freq t rde d
  if ¬ (hasKey d1 "time" = true ∨ hasKey d1 "tempo" = true) then
    Except.error "KeyError: tempo"
  else
    let tk := if hasKey d1 "time" then "time" else "tempo"
    match firstBadSeries d1 tk with
    | some k => Except.error (lengthMsg k (dictGet d1 k).length tk (dictGet d1 tk).length)
    | none =>
      let cols := (d1.entries.map Prod.fst).filter (fun k => k != tk)
      Except.ok ("time" :: dedupLabels cols, (dictGet d1 tk).length)

/-- The concrete full dictionary of the C3 test vector: channel labels
`["A","A","B"]`, one sample. -/
def dictAAB : FullDict :=
  { hasTime := true, hasData := true, time := [0], data := [[1], [2], [3]],
    labels := ["A", "A", "B"], n_samples := 1, delta_t := none, tmax := none }

/-! ## The ATP job runner (`RodaeCriaPl4.run_atp_arquivo` / `main`)

The filesystem state the runner mutates: the subdirectories of `TmpATP/`,
the `.pl4` files moved into `ArquivoPL4/`, and the quarantine copies in
`cartoesnaorodados/`.  `_limpa_dir` (a `shutil.rmtree` with retries that
gives up silently) is modelled as succeeding; external-process behaviour is
abstracted into an outcome per job. -/

structure AtpFs where
  tmpSubdirs : List String
  pl4Out : List String
  naoRodados : List String
  deriving DecidableEq

/-- The possible terminal behaviours of one `runATP.exe` job, read off the
branches of `run_atp_arquivo` and of the `as_completed` handler in `main`:
the simulator produced a `.pl4` that was moved out; it produced none; the
move to `ArquivoPL4` raised `RuntimeError`; `subprocess.run` raised
`TimeoutExpired`; any other exception. -/
inductive AtpOutcome where
  | ok
  | noArtifact
  | moveFail
  | timeout
  | exc
  deriving DecidableEq

/-- `run_atp_arquivo`: create the unique per-job subdirectory of `TmpATP/`,
run the simulator, branch on the outcome, and — in the `finally:` block —
delete the subdirectory whatever happened.  The first component is the
function's result: `Except.error` models the body raising. -/
def runAtpArquivo (sub : String) (oc : AtpOutcome) (fs : AtpFs) :
    Except String (Option String) × AtpFs :=
  let fs1 : AtpFs := { fs with tmpSubdirs := sub :: fs.tmpSubdirs }
  let body : Except String (Option String) × AtpFs :=
    match oc with
    | .ok => (Except.ok (some sub), { fs1 with pl4Out := sub :: fs1.pl4Out })
    | .noArtifact => (Except.ok none, { fs1 with naoRodados := sub :: fs1.naoRodados })
    | .moveFail => (Except.error "Falha ao mover", fs1)
    | .timeout => (Except.error "TimeoutExpired", fs1)
    | .exc => (Except.error "Exception", fs1)
  (body.1, { body.2 with tmpSubdirs := body.2.tmpSubdirs.erase sub })

/-- The `main` batch loop: run every job, quarantining a copy of the input
on any raised error (the `except` arms of the `as_completed` loop), then
perform the final sweep that `_limpa_dir`s every subdirectory left in
`TmpATP/`. -/
def atpMainBatch (jobs : List (String × AtpOutcome)) (fs0 : AtpFs) : AtpFs :=
  let fs1 := jobs.foldl (fun acc jb =>
    let r := runAtpArquivo jb.1 jb.2 acc
    match r.1 with
    | Except.ok _ => r.2
    | Except.error _ => { r.2 with naoRodados := jb.1 :: r.2.naoRodados }) fs0
  { fs1 with tmpSubdirs := fs1.tmpSubdirs.foldl (fun acc d => acc.erase d) fs1.tmpSubdirs }

/-! ## Concurrency admission (`RodaeCriaPl4.main`, `conta_tpbig`)

`main` submits jobs to a `ThreadPoolExecutor(max_workers=NUMTHREADS)` and
additionally busy-waits while `conta_tpbig()` — the number of live
`tpbig.exe` simulator processes — is at least `NUMTHREADS`.  Each worker
runs one external process at a time, so a new job can enter the Running
state only while fewer than `NUMTHREADS` jobs are Running.  That admission
rule is the `start` guard of the transition system below; the claim is the
invariant that the bound is never exceeded. -/

inductive JobPhase where
  | pending
  | running
  | done
  deriving DecidableEq

/-- Number of jobs currently in the Running state (= live `tpbig.exe`
processes, what `conta_tpbig` observes). -/
def runningCount (s : List JobPhase) : Nat := s.count JobPhase.running

/-- One scheduler step of the batch under concurrency limit `K`: a pending
job may start only while fewer than `K` jobs are running (pool admission +
the `conta_tpbig` gate); a running job may finish. -/
inductive PoolStep (K : Nat) : List JobPhase → List JobPhase → Prop where
  | start (s : List JobPhase) (i : Nat) (h : s[i]? = some JobPhase.pending)
      (hK : runningCount s < K) : PoolStep K s (s.set i JobPhase.running)
  | finish (s : List JobPhase) (i : Nat) (h : s[i]? = some JobPhase.running) :
      PoolStep K s (s.set i JobPhase.done)

/-- States reachable from the initial batch of `n` pending jobs. -/
def PoolReachable (K n : Nat) (s : List JobPhase) : Prop :=
  Relation.ReflTransGen (PoolStep K) (List.replicate n JobPhase.pending) s

/-! ## PL4→MAT conversion polling (`Pl4paraMatlab`) -/

/-- `STABILIZE_TRIES`. -/
def stabilizeTries : Nat := 6

/-- Errors `_wait_for_mat_creation_and_stabilize` can raise: the
`TimeoutError` when no `.MAT` appears, and the `RuntimeError` when the last
observed size is not positive. -/
inductive WaitErr where
  | timeoutErr
  | invalidSize
  deriving DecidableEq

/-- The size-stabilization loop (lines 103–114): up to `tries` reads of the
file size; a read equal to the previous one and positive increments the
stable counter, anything else resets it; the loop exits early once the
counter reaches 2.  Returns `last_size` as left by the loop. -/
def stabilizeGo (sizes : Nat → Int) : Nat → Int → Nat → Nat → Int
  | 0, last, _, _ => last
  | tries + 1, last, stable, idx =>
    let s := sizes idx
    let stable' := if s = last ∧ 0 < s then stable + 1 else 0
    if 2 ≤ stable' then s
    else stabilizeGo sizes tries s stable' (idx + 1)

/-- `last_size` after the whole stabilization phase (initial
`last_size = -1`, `stable_count = 0`). -/
def stabilizeLast (sizes : Nat → Int) : Int :=
  stabilizeGo sizes stabilizeTries (-1) 0 0

/-- Poll index of the first appearance of the artifact, over the
`appear_timeout`-bounded poll loop (one poll every 0.5 s; `maxPolls` is the
number of polls the wall-clock budget allows). -/
def firstAppearIdx (appears : Nat → Bool) (maxPolls : Nat) : Option Nat :=
  (List.range maxPolls).find? appears

/-- `_wait_for_mat_creation_and_stabilize`: wait for the artifact to appear
(`TimeoutError` if it never does within the budget), run the stabilization
loop, and raise `RuntimeError` unless the last observed size is positive.
`appears k` abstracts `_find_generated_mat_in_dir` succeeding at poll `k`;
`sizes i` is the `i`-th `stat().st_size` read. -/
def waitForMatAndStabilize (appears : Nat → Bool) (sizes : Nat → Int)
    (maxPolls : Nat) : Except WaitErr Unit :=
  match firstAppearIdx appears maxPolls with
  | none => Except.error WaitErr.timeoutErr
  | some _ =>
    if stabilizeLast sizes ≤ 0 then Except.error WaitErr.invalidSize
    else Except.ok ()

/-- A size stream that grows on every read: 1, 2, 3, …  (a file still being
flushed). -/
def growingSizes (i : Nat) : Int := (i : Int) + 1

/-! ## Stale-artifact deletion (`Pl4paraMatlab._run_pl42mat_like_matlab`,
`_find_generated_mat_in_dir`) -/

/-- A file name as `pathlib` sees it: `stem` plus `suffix` (the extension,
dot included). -/
structure FName where
  stem : String
  suffix : String
  deriving DecidableEq

/-- `_find_generated_mat_in_dir`: try the three candidate spellings
`<stem>.mat` / `<stem>.MAT` / `<stem>.Mat` in order, then fall back to a
scan of the directory for any file whose suffix lowercases to `.mat` and
whose stem lowercases to the stem.  `dir` is the directory listing in
iteration order (regular files; `is_file()` is absorbed into the model). -/
def findGeneratedMatInDir (dir : List FName) (stem : String) : Option FName :=
  match (([⟨stem, ".mat"⟩, ⟨stem, ".MAT"⟩, ⟨stem, ".Mat"⟩] : List FName).find?
      (fun c => dir.any (fun p => decide (p = c)))) with
  | some c => some c
  | none =>
    dir.find? (fun p =>
      decide (pyLower p.suffix = ".mat" ∧ pyLower p.stem = pyLower stem))

/-- The pre-launch cleanup of `_run_pl42mat_like_matlab` (lines 133–139):
unlink `<stem>.mat`, `<stem>.MAT` and `<stem>.Mat` from the working
directory when present (deletion modelled as succeeding; the code ignores
unlink errors). -/
def deleteOldMats (dir : List FName) (stem : String) : List FName :=
  dir.filter (fun p =>
    ! decide (p = ⟨stem, ".mat"⟩ ∨ p = ⟨stem, ".MAT"⟩ ∨ p = ⟨stem, ".Mat"⟩))

end AutomatizaSimuATP

namespace AutomatizaSimuATP

/-! ## Theorems for C1 and C2 -/

/-- Exact integer division (floor form) agrees with rational division. -/
theorem int_fdiv_exact_cast (a b : Int) (hb0 : b ≠ 0) (h : a % b = 0) :
    ((a.fdiv b : Int) : ℚ) = (a : ℚ) / (b : ℚ) := by
  obtain ⟨k, hk⟩ := Int.dvd_of_emod_eq_zero h
  have hbq : (b : ℚ) ≠ 0 := Int.cast_ne_zero.mpr hb0
  rw [hk, mul_comm b k, Int.mul_fdiv_cancel _ hb0]
  push_cast
  field_simp

/-- C1: for every PL4 file, the decoder reads the sampling interval as a
4-byte little-endian float at offset 40, the channel count as the 4-byte
little-endian unsigned integer at offset 48 divided by 2, and the declared
payload size as the 4-byte little-endian unsigned integer at offset 56
minus 1; when the payload arithmetic is exact (the valid-header case of the
spec, phrased here as a zero remainder) the record count equals
`(declared_size − 5*16 − channel_count*16) / ((channel_count+1)*4)` as a
true quotient, and the max time equals
`(record_count − 1) * sampling_interval`. -/
theorem readpl4_header_fields (f : List Nat) (d : ℚ)
    (hfin : f32val (readU32LE f 40) = some d)
    (hexact : ((readpl4Misc f).pl4size - 5 * 16 - ((readpl4Misc f).nvar : Int) * 16) %
        ((((readpl4Misc f).nvar : Int) + 1) * 4) = 0) :
    (readpl4Misc f).deltat = some d ∧
    (readpl4Misc f).nvar = readU32LE f 48 / 2 ∧
    (readpl4Misc f).pl4size = (readU32LE f 56 : Int) - 1 ∧
    ((readpl4Misc f).steps : ℚ) =
      (((readpl4Misc f).pl4size - 5 * 16 - ((readpl4Misc f).nvar : Int) * 16 : Int) : ℚ) /
        ((((readpl4Misc f).nvar : Int) + 1) * 4 : ℚ) ∧
    (readpl4Misc f).tmax = some ((((readpl4Misc f).steps - 1 : Int) : ℚ) * d) := by
  have hb0 : ((((readpl4Misc f).nvar : Int) + 1) * 4) ≠ 0 := by positivity
  have hsteps : (readpl4Misc f).steps =
      Int.fdiv ((readpl4Misc f).pl4size - 5 * 16 - ((readpl4Misc f).nvar : Int) * 16)
        ((((readpl4Misc f).nvar : Int) + 1) * 4) := rfl
  refine ⟨?_, rfl, rfl, ?_, ?_⟩
  · simp only [readpl4Misc, hfin]
  · rw [hsteps, int_fdiv_exact_cast _ _ hb0 hexact]
    push_cast
    ring
  · simp only [readpl4Misc, hfin]
    rfl

/-- Witness for C1 at `pl4HeaderExample`. -/
theorem readpl4_header_fields_witness :
    f32val (readU32LE pl4HeaderExample 40) = some 1 ∧
    (((readpl4Misc pl4HeaderExample).pl4size - 5 * 16 -
        ((readpl4Misc pl4HeaderExample).nvar : Int) * 16) %
      ((((readpl4Misc pl4HeaderExample).nvar : Int) + 1) * 4) = 0) ∧
    ((readpl4Misc pl4HeaderExample).steps : ℚ) =
      (((readpl4Misc pl4HeaderExample).pl4size - 5 * 16 -
          ((readpl4Misc pl4HeaderExample).nvar : Int) * 16 : Int) : ℚ) /
        ((((readpl4Misc pl4HeaderExample).nvar : Int) + 1) * 4 : ℚ) := by
  have hb : readU32LE pl4HeaderExample 40 = 1065353216 := by decide
  have hfin : f32val (readU32LE pl4HeaderExample 40) = some 1 := by
    rw [hb]
    simp only [f32val]
    norm_num
  have hexact : (((readpl4Misc pl4HeaderExample).pl4size - 5 * 16 -
      ((readpl4Misc pl4HeaderExample).nvar : Int) * 16) %
      ((((readpl4Misc pl4HeaderExample).nvar : Int) + 1) * 4) = 0) := by decide
  exact ⟨hfin, hexact, (readpl4_header_fields pl4HeaderExample 1 hfin hexact).2.2.2.1⟩

/-- C2 counterexample: `pl4NonIntegralExample` derives a *non-integral*
record count (`12 / 8`), yet `readpl4` raises nothing and returns a
dataset — there is no `CorruptHeader` path anywhere in the decoder. -/
theorem readpl4_no_corrupt_header_counterexample :
    (readpl4 pl4NonIntegralExample).isSome = true ∧
    ((readpl4Misc pl4NonIntegralExample).pl4size - 5 * 16 -
        ((readpl4Misc pl4NonIntegralExample).nvar : Int) * 16) %
      ((((readpl4Misc pl4NonIntegralExample).nvar : Int) + 1) * 4) ≠ 0 := by
  constructor
  · decide
  · decide

/-- C2 amended: the decoder performs no record-count validation at all.
Whenever the file is long enough for every read, the TYPE bytes parse, and
the floored record count is non-negative, `readpl4` returns a dataset whose
record count is the *floor* of the payload quotient — even when the
quotient is not integral. -/
theorem readpl4_returns_dataset_unvalidated (f : List Nat)
    (h60 : 60 ≤ f.length)
    (hvar : 5 * 16 + (readpl4Misc f).nvar * 16 ≤ f.length)
    (hty : pl4TypesOk f = true)
    (hsteps : 0 ≤ (readpl4Misc f).steps)
    (hdata : pl4DataEnd f ≤ (f.length : Int)) :
    ∃ r, readpl4 f = some r ∧
      r.misc.steps =
        ((readpl4Misc f).pl4size - 5 * 16 - ((readpl4Misc f).nvar : Int) * 16).fdiv
          ((((readpl4Misc f).nvar : Int) + 1) * 4) := by
  rw [readpl4]
  rw [if_neg (by omega), if_neg (by omega), if_neg (by simp [hty]),
    if_neg (by omega), if_neg (by omega)]
  exact ⟨_, rfl, rfl⟩

/-- Witness for the amended C2 at the non-integral example file. -/
theorem readpl4_returns_dataset_unvalidated_witness :
    60 ≤ pl4NonIntegralExample.length ∧
    pl4TypesOk pl4NonIntegralExample = true ∧
    ∃ r, readpl4 pl4NonIntegralExample = some r ∧
      r.misc.steps =
        ((readpl4Misc pl4NonIntegralExample).pl4size - 5 * 16 -
            ((readpl4Misc pl4NonIntegralExample).nvar : Int) * 16).fdiv
          ((((readpl4Misc pl4NonIntegralExample).nvar : Int) + 1) * 4) :=
  ⟨by decide, by decide,
    readpl4_returns_dataset_unvalidated pl4NonIntegralExample
      (by decide) (by decide) (by decide) (by decide) (by decide)⟩

/-! ## Theorems for C3 -/

theorem dedupGo_length (all : List String) (seen : String → Nat) (ls : List String) :
    (dedupGo all seen ls).length = ls.length := by
  induction ls generalizing seen with
  | nil => rfl
  | cons x ls ih =>
    simp only [dedupGo]
    by_cases hdup : 1 < all.count x
    · rw [if_pos hdup]
      simp [ih]
    · rw [if_neg hdup]
      simp [ih]

/-- Elementwise description of the renaming loop: with `seen` holding the
occurrence counts over the already-processed prefix `pre`, position `j` of
the output renames the label exactly when its total count in `all` exceeds
one, using its occurrence index so far. -/
theorem dedupGo_getD (all : List String) (suf : List String) :
    ∀ (pre : List String) (j : Nat), j < suf.length →
      (dedupGo all (fun l => pre.count l) suf).getD j "" =
        (if 1 < all.count (suf.getD j "") then
          suf.getD j "" ++ "_" ++
            toString (pre.count (suf.getD j "") + (suf.take (j + 1)).count (suf.getD j ""))
        else suf.getD j "") := by
  induction suf with
  | nil => intro pre j h; simp at h
  | cons x ls ih =>
    intro pre j h
    by_cases hdup : 1 < all.count x
    · simp only [dedupGo, if_pos hdup]
      cases j with
      | zero =>
        simp only [List.getD_cons_zero, if_pos hdup, List.take_succ_cons, List.take_zero]
        have h1 : ([x] : List String).count x = 1 := by simp
        rw [h1]
      | succ j =>
        have hupd : (fun y => if y = x then pre.count x + 1 else pre.count y) =
            fun y => (pre ++ [x]).count y := by
          funext y
          by_cases hy : y = x
          · subst hy
            simp [List.count_append]
          · simp [List.count_append, List.count_singleton', hy,
              (by exact fun hxy => hy hxy.symm : ¬ x = y)]
        simp only [List.getD_cons_succ, hupd]
        rw [ih (pre ++ [x]) j (by simpa using h)]
        set y := ls.getD j "" with hy
        have hcnt : (pre ++ [x]).count y + (ls.take (j + 1)).count y =
            pre.count y + ((x :: ls).take (j + 1 + 1)).count y := by
          simp only [List.count_append, List.take_succ_cons, List.count_cons, List.count_nil]
          omega
        rw [hcnt]
    · simp only [dedupGo, if_neg hdup]
      cases j with
      | zero =>
        simp only [List.getD_cons_zero, if_neg hdup]
      | succ j =>
        simp only [List.getD_cons_succ]
        rw [ih pre j (by simpa using h)]
        set y := ls.getD j "" with hy
        by_cases hyd : 1 < all.count y
        · have hxy : ¬ (x == y) = true := by
            intro hxy
            exact hdup (by rwa [beq_iff_eq.mp hxy])
          rw [if_pos hyd, if_pos hyd]
          have hcnt : (ls.take (j + 1)).count y = ((x :: ls).take (j + 1 + 1)).count y := by
            simp only [List.take_succ_cons, List.count_cons, hxy]
            simp
          rw [hcnt]
        · rw [if_neg hyd, if_neg hyd]

/-- C3 counterexample: in full-export mode the channel labels
`["A","A","B"]` produce the columns `["time","A_1","A_2","B"]`, not the
`["time","A","A_2","B"]` the claim requires — the *first* occurrence of a
repeated label is renamed too. -/
theorem export_dedup_counterexample :
    saveResultsParquetFull false 128 60 0 "inicio" dictAAB =
      Except.ok (["time", "A_1", "A_2", "B"], 1) ∧
    (["time", "A_1", "A_2", "B"] : List String) ≠ ["time", "A", "A_2", "B"] :=
  ⟨rfl, by decide⟩

/-- C3 amended: duplicate column names are disambiguated deterministically
in encounter order, but *every* occurrence of a repeated label — the first
included — receives a suffix: the `j`-th occurrence of a label occurring
more than once becomes `label_j`, so `["A","A","B"]` exports as
`["A_1","A_2","B"]`; labels that occur once are never renamed. -/
theorem dedupLabels_renames_all_occurrences (xs : List String) (i : Nat)
    (h : i < xs.length) :
    (dedupLabels xs).length = xs.length ∧
    (dedupLabels xs).getD i "" =
      (if 1 < xs.count (xs.getD i "") then
        xs.getD i "" ++ "_" ++ toString ((xs.take (i + 1)).count (xs.getD i ""))
      else xs.getD i "") := by
  by_cases hany : xs.any (fun l => decide (1 < xs.count l)) = true
  · have hseen : (fun _ : String => 0) = fun l => ([] : List String).count l := by
      funext l; simp
    constructor
    · rw [dedupLabels, if_pos hany, dedupGo_length]
    · rw [dedupLabels, if_pos hany, hseen, dedupGo_getD xs xs [] i h]
      simp
  · have hnone : ∀ l ∈ xs, ¬ 1 < xs.count l := by
      intro l hl
      by_contra hgt
      exact hany (List.any_eq_true.mpr ⟨l, hl, by simpa using hgt⟩)
    have hmem : xs.getD i "" ∈ xs := by
      rw [List.getD_eq_getElem xs "" h]
      exact List.getElem_mem h
    constructor
    · rw [dedupLabels, if_neg hany]
    · rw [dedupLabels, if_neg hany, if_neg (hnone _ hmem)]

/-- Witness for the amended C3 at `["A","A","B"]`, position 1. -/
theorem dedupLabels_renames_all_occurrences_witness :
    (dedupLabels ["A", "A", "B"]).length = (["A", "A", "B"] : List String).length ∧
    (dedupLabels ["A", "A", "B"]).getD 1 "" =
      (if 1 < (["A", "A", "B"] : List String).count
          ((["A", "A", "B"] : List String).getD 1 "") then
        (["A", "A", "B"] : List String).getD 1 "" ++ "_" ++
          toString (((["A", "A", "B"] : List String).take (1 + 1)).count
            ((["A", "A", "B"] : List String).getD 1 ""))
      else (["A", "A", "B"] : List String).getD 1 "") :=
  dedupLabels_renames_all_occurrences ["A", "A", "B"] 1 (by decide)

/-! ## Theorems for C4 and C5 -/

theorem headD_eq_head?_getD {α : Type} (l : List α) (a : α) :
    l.headD a = l.head?.getD a := by
  cases l <;> rfl

theorem ndim2_rowLen (m : List (List ℚ)) (h : ndim2 m = true) :
    ∀ r ∈ m, r.length = matCols m := by
  cases m with
  | nil => simp [ndim2] at h
  | cons r rs =>
    intro x hx
    rcases List.mem_cons.mp hx with rfl | hx'
    · rfl
    · have h' : ∀ x ∈ rs, x.length = r.length := by
        simpa [ndim2, List.all_eq_true] using h
      simpa [matCols] using h' x hx'

/-- Python's `int()` truncation and mathematical floor agree after the
`max(·, 0)` clamp. -/
theorem pyInt_max_floor (q : ℚ) : max (pyInt q) 0 = max ⌊q⌋ 0 := by
  rcases le_or_lt 0 q.num with h | h
  · have heq : pyInt q = ⌊q⌋ := by
      rw [pyInt, Int.tdiv_eq_ediv h (by positivity), Rat.floor_def]
    rw [heq]
  · have h1 : pyInt q ≤ 0 := by
      rw [pyInt]
      have hden : (0 : Int) ≤ (q.den : Int) := by positivity
      have hneg := Int.tdiv_nonneg (a := -q.num) (b := (q.den : Int)) (by omega) hden
      rw [Int.neg_tdiv] at hneg
      omega
    have h2 : ⌊q⌋ ≤ 0 := Int.floor_nonpos (Rat.num_nonpos.mp h.le)
    rw [max_eq_right h1, max_eq_right h2]

/-- C4: with consistent shapes and a drop count `n` strictly between 0 and
`N`, cropping from the start removes exactly the first `n` samples from the
time vector and from every matrix row (so the new time vector's first value
is the original value at index `n`), cropping from the end removes exactly
the last `n` samples (both axes shrink by exactly `n`), and the record
count and max time are recomputed from the new length with the unchanged
sampling interval. -/
theorem applyCut_crop (fs : Int) (freq t : ℚ) (d : FullDict) (dt : ℚ)
    (hT : d.hasTime = true) (hD : d.hasData = true)
    (hsh : ndim2 d.data = true) (hcols : matCols d.data = d.time.length)
    (ht : 0 < t) (hdt : d.delta_t = some dt)
    (hn0 : 0 < nRemover fs freq t)
    (hnN : nRemover fs freq t < (d.time.length : Int)) :
    ((applyCutFullDict true fs freq t "inicio" d).time =
        d.time.drop (nRemover fs freq t).toNat ∧
      (applyCutFullDict true fs freq t "inicio" d).data =
        d.data.map (fun r => r.drop (nRemover fs freq t).toNat) ∧
      (applyCutFullDict true fs freq t "inicio" d).time.headD 0 =
        d.time.getD (nRemover fs freq t).toNat 0 ∧
      (applyCutFullDict true fs freq t "inicio" d).time.length =
        d.time.length - (nRemover fs freq t).toNat ∧
      (applyCutFullDict true fs freq t "inicio" d).n_samples =
        ((d.time.length - (nRemover fs freq t).toNat : Nat) : Int) ∧
      (applyCutFullDict true fs freq t "inicio" d).tmax =
        some (((((d.time.length - (nRemover fs freq t).toNat : Nat) : Int) - 1 : Int)) * dt)) ∧
    ((applyCutFullDict true fs freq t "fim" d).time =
        d.time.take (d.time.length - (nRemover fs freq t).toNat) ∧
      (applyCutFullDict true fs freq t "fim" d).time.length =
        d.time.length - (nRemover fs freq t).toNat ∧
      (applyCutFullDict true fs freq t "fim" d).data.length = d.data.length ∧
      (∀ r ∈ (applyCutFullDict true fs freq t "fim" d).data,
        r.length = d.time.length - (nRemover fs freq t).toNat) ∧
      (applyCutFullDict true fs freq t "fim" d).n_samples =
        ((d.time.length - (nRemover fs freq t).toNat : Nat) : Int) ∧
      (applyCutFullDict true fs freq t "fim" d).tmax =
        some (((((d.time.length - (nRemover fs freq t).toNat : Nat) : Int) - 1 : Int)) * dt)) := by
  have hc1 : ¬¬((true : Bool) = true ∧ 0 < t) := not_not_intro ⟨rfl, ht⟩
  have hc2 : ¬¬(d.hasTime = true ∧ d.hasData = true) := not_not_intro ⟨hT, hD⟩
  have hc3 : ¬¬(ndim2 d.data = true ∧ matCols d.data = d.time.length) :=
    not_not_intro ⟨hsh, hcols⟩
  have hc4 : ¬(nRemover fs freq t ≤ 0 ∨ (d.time.length : Int) ≤ nRemover fs freq t) := by
    omega
  have hfimS : (pyLower "inicio" = "fim") = False := by
    simp [show pyLower "inicio" ≠ "fim" from by decide]
  have hfimE : (pyLower "fim" = "fim") = True := by
    simp [show pyLower "fim" = "fim" from by decide]
  have eS : applyCutFullDict true fs freq t "inicio" d =
      { d with
        time := d.time.drop (nRemover fs freq t).toNat
        data := d.data.map (fun r => r.drop (nRemover fs freq t).toNat)
        n_samples := ((d.time.drop (nRemover fs freq t).toNat).length : Int)
        tmax :=
          some (((((d.time.drop (nRemover fs freq t).toNat).length : Int) - 1 : Int)) * dt) } := by
    rw [applyCutFullDict, if_neg hc1, if_neg hc2, if_neg hc3, if_neg hc4]
    simp only [hfimS, if_false, hdt]
  have eE : applyCutFullDict true fs freq t "fim" d =
      { d with
        time := d.time.take (d.time.length - (nRemover fs freq t).toNat)
        data := d.data.map (fun r => r.take (r.length - (nRemover fs freq t).toNat))
        n_samples :=
          ((d.time.take (d.time.length - (nRemover fs freq t).toNat)).length : Int)
        tmax :=
          some (((((d.time.take (d.time.length - (nRemover fs freq t).toNat)).length : Int)
            - 1 : Int)) * dt) } := by
    rw [applyCutFullDict, if_neg hc1, if_neg hc2, if_neg hc3, if_neg hc4]
    simp only [hfimE, if_true, hdt]
  have hlen : (d.time.take (d.time.length - (nRemover fs freq t).toNat)).length =
      d.time.length - (nRemover fs freq t).toNat := by
    rw [List.length_take]
    omega
  refine ⟨⟨?_, ?_, ?_, ?_, ?_, ?_⟩, ?_, ?_, ?_, ?_, ?_, ?_⟩
  · rw [eS]
  · rw [eS]
  · rw [eS]
    rw [headD_eq_head?_getD, List.head?_drop, List.getD_eq_getElem?_getD]
  · rw [eS]
    simp [List.length_drop]
  · rw [eS]
    simp [List.length_drop]
  · rw [eS]
    simp [List.length_drop]
  · rw [eE]
  · rw [eE]
    exact hlen
  · rw [eE]
    simp
  · rw [eE]
    simp only [List.mem_map, forall_exists_index, and_imp]
    rintro r r₀ hr₀ rfl
    rw [List.length_take, ndim2_rowLen d.data hsh r₀ hr₀, hcols]
    omega
  · rw [eE, hlen]
  · rw [eE, hlen]

/-- Witness for C4: a 4-sample, 1-channel dataset cropped by
`n = 1 * 1 * 2 = 2` samples. -/
def dict4 : FullDict :=
  { hasTime := true, hasData := true, time := [0, 1, 2, 3],
    data := [[10, 11, 12, 13]], labels := ["x"], n_samples := 4,
    delta_t := some 1, tmax := some 3 }

theorem nRemover_one_one_two : nRemover 1 1 2 = 2 := by
  have hq : ((1 : Int) : ℚ) * 1 * 2 = 2 := by norm_num
  rw [nRemover, hq, pyInt]
  norm_num

theorem applyCut_crop_witness :
    (0 : ℚ) < 2 ∧ 0 < nRemover 1 1 2 ∧ nRemover 1 1 2 < ((dict4.time.length : Nat) : Int) ∧
    (applyCutFullDict true 1 1 2 "inicio" dict4).time =
      dict4.time.drop (nRemover 1 1 2).toNat ∧
    (applyCutFullDict true 1 1 2 "fim" dict4).time.length =
      dict4.time.length - (nRemover 1 1 2).toNat := by
  have h0 : (0 : ℚ) < 2 := by norm_num
  have h1 : 0 < nRemover 1 1 2 := by rw [nRemover_one_one_two]; decide
  have h2 : nRemover 1 1 2 < ((dict4.time.length : Nat) : Int) := by
    rw [nRemover_one_one_two]; decide
  have happ := applyCut_crop 1 1 2 dict4 1 rfl rfl (by decide) (by decide) h0 rfl h1 h2
  exact ⟨h0, h1, h2, happ.1.1, happ.2.2.1⟩

/-- C5: the crop count is `floor(samples_per_cycle * line_frequency_hz *
seconds_to_remove)` clamped to ≥ 0; the crop is the identity (and, being a
total function, never raises) whenever that count is ≤ 0 or ≥ N or the
shapes are inconsistent; and `seconds_to_remove = 0` makes the crop the
identity on every dataset. -/
theorem applyCut_noop (remover : Bool) (fs : Int) (freq t : ℚ) (rde : String)
    (d : FullDict) :
    nRemover fs freq t = max ⌊(fs : ℚ) * freq * t⌋ 0 ∧
    (t = 0 → applyCutFullDict remover fs freq t rde d = d) ∧
    ((ndim2 d.data = false ∨ matCols d.data ≠ d.time.length ∨
        nRemover fs freq t ≤ 0 ∨ (d.time.length : Int) ≤ nRemover fs freq t) →
      applyCutFullDict remover fs freq t rde d = d) := by
  refine ⟨?_, ?_, ?_⟩
  · rw [nRemover, pyInt_max_floor]
  · intro ht0
    rw [applyCutFullDict, if_pos]
    intro hcon
    rw [ht0] at hcon
    exact lt_irrefl 0 hcon.2
  · intro hbad
    by_cases hg1 : ¬(remover = true ∧ 0 < t)
    · rw [applyCutFullDict, if_pos hg1]
    · by_cases hg2 : ¬(d.hasTime = true ∧ d.hasData = true)
      · rw [applyCutFullDict, if_neg hg1, if_pos hg2]
      · by_cases hg3 : ¬(ndim2 d.data = true ∧ matCols d.data = d.time.length)
        · rw [applyCutFullDict, if_neg hg1, if_neg hg2, if_pos hg3]
        · have hsh := (not_not.mp hg3)
          have hc4 : nRemover fs freq t ≤ 0 ∨ (d.time.length : Int) ≤ nRemover fs freq t := by
            rcases hbad with hb | hb | hb | hb
            · rw [hsh.1] at hb; exact absurd hb (by simp)
            · exact absurd hsh.2 hb
            · exact Or.inl hb
            · exact Or.inr hb
          rw [applyCutFullDict, if_neg hg1, if_neg hg2, if_neg hg3, if_pos hc4]

/-- Witness for C5: `seconds_to_remove = 0` is the identity, and a zero
crop count is a no-op. -/
theorem applyCut_noop_witness :
    (0 : ℚ) = 0 ∧
    applyCutFullDict false 1 1 0 "inicio" dict4 = dict4 ∧
    nRemover 1 1 0 ≤ 0 ∧
    applyCutFullDict true 1 1 0 "inicio" dict4 = dict4 := by
  have hzero : nRemover 1 1 0 ≤ 0 := by
    have h := (applyCut_noop true 1 1 0 "inicio" dict4).1
    rw [h]
    norm_num
  exact ⟨rfl, (applyCut_noop false 1 1 0 "inicio" dict4).2.1 rfl, hzero,
    (applyCut_noop true 1 1 0 "inicio" dict4).2.2 (Or.inr (Or.inr (Or.inl hzero)))⟩

/-! ## Theorem for C6 -/

theorem string_middle_infix (a b c : String) : b.data <:+: (a ++ b ++ c).data :=
  ⟨a.data, c.data, by simp [String.data_append]⟩

/-- C6: in selected-export mode, a series whose length differs from the
time vector's makes the export fail with the `ValueError` the spec calls
`LengthMismatch`, whose message names the (first) offending series; the
error is raised before the parquet write (the `.ok` payload), so nothing is
written and a prior export at the same destination is untouched. -/
theorem saveInterest_length_mismatch (fs : Int) (freq t : ℚ) (rde : String)
    (d : InterestDict) (k : String)
    (hT : hasKey d "time" = true)
    (hbad : firstBadSeries d "time" = some k) :
    ∃ msg, saveResultsParquetInterest false fs freq t rde d = Except.error msg ∧
      msg = lengthMsg k (dictGet d k).length "time" (dictGet d "time").length ∧
      k.data <:+: msg.data := by
  have hcut : applyCutInterestDict false fs freq t rde d = d := by
    rw [applyCutInterestDict, if_pos]
    intro hcon
    exact Bool.noConfusion hcon.1
  refine ⟨lengthMsg k (dictGet d k).length "time" (dictGet d "time").length, ?_, rfl, ?_⟩
  · rw [saveResultsParquetInterest]
    simp [hcut, hT, hbad]
  · have hsplit : lengthMsg k (dictGet d k).length "time" (dictGet d "time").length =
        ("Tamanho inconsistente entre " ++ sq) ++ k ++
          (sq ++ " (" ++ toString (dictGet d k).length ++ ") e " ++ sq ++ "time" ++ sq ++
            " (" ++ toString (dictGet d "time").length ++ ").") := by
      simp [lengthMsg, String.append_assoc]
    rw [hsplit]
    exact string_middle_infix _ _ _

/-- The concrete selected-export dictionary of the C6 test vector: time has
2 samples, series `x` only 1. -/
def dictMismatch : InterestDict := ⟨[("time", [0, 1]), ("x", [5])]⟩

/-- Witness for C6 at `dictMismatch`. -/
theorem saveInterest_length_mismatch_witness :
    hasKey dictMismatch "time" = true ∧
    firstBadSeries dictMismatch "time" = some "x" ∧
    ∃ msg, saveResultsParquetInterest false 128 60 0 "inicio" dictMismatch =
        Except.error msg ∧
      msg = lengthMsg "x" (dictGet dictMismatch "x").length "time"
        (dictGet dictMismatch "time").length ∧
      ("x" : String).data <:+: msg.data :=
  ⟨by decide, by decide,
    saveInterest_length_mismatch 128 60 0 "inicio" dictMismatch "x" (by decide) (by decide)⟩

/-! ## Theorems for C7 -/

theorem foldl_erase_self (l : List String) :
    l.foldl (fun acc d => acc.erase d) l = [] := by
  induction l with
  | nil => rfl
  | cons a l ih =>
    show List.foldl (fun acc d => acc.erase d) ((a :: l).erase a) l = []
    rw [List.erase_cons_head]
    exact ih

/-- C7: the per-job temporary subdirectory is gone after
`run_atp_arquivo` reaches any terminal state — artifact moved, artifact
missing, move failure, timeout, or any other exception — thanks to the
`finally:` cleanup (given the job's directory name is fresh, which the
UUID suffix guarantees); and after the whole batch the final sweep leaves
no subdirectory in `TmpATP/` at all. -/
theorem runner_cleanup (sub : String) (oc : AtpOutcome) (fs : AtpFs)
    (jobs : List (String × AtpOutcome)) (fs0 : AtpFs)
    (hfresh : sub ∉ fs.tmpSubdirs) :
    sub ∉ (runAtpArquivo sub oc fs).2.tmpSubdirs ∧
    (atpMainBatch jobs fs0).tmpSubdirs = [] := by
  constructor
  · have hbody : (runAtpArquivo sub oc fs).2.tmpSubdirs =
        (sub :: fs.tmpSubdirs).erase sub := by
      cases oc <;> rfl
    rw [hbody, List.erase_cons_head]
    exact hfresh
  · rw [atpMainBatch]
    exact foldl_erase_self _

/-- Witness for C7: one job of each kind of failure, starting from an empty
temporary root. -/
theorem runner_cleanup_witness :
    ("j1" : String) ∉ (⟨[], [], []⟩ : AtpFs).tmpSubdirs ∧
    ("j1" : String) ∉ (runAtpArquivo "j1" AtpOutcome.timeout ⟨[], [], []⟩).2.tmpSubdirs ∧
    (atpMainBatch [("a", AtpOutcome.ok), ("b", AtpOutcome.exc)] ⟨[], [], []⟩).tmpSubdirs
      = [] :=
  ⟨by decide,
    (runner_cleanup "j1" AtpOutcome.timeout ⟨[], [], []⟩ [] ⟨[], [], []⟩ (by decide)).1,
    (runner_cleanup "j1" AtpOutcome.timeout ⟨[], [], []⟩
      [("a", AtpOutcome.ok), ("b", AtpOutcome.exc)] ⟨[], [], []⟩ (by decide)).2⟩

/-! ## Theorems for C8 -/

theorem count_set_balance (l : List JobPhase) (i : Nat) (a b c : JobPhase)
    (h : l[i]? = some b) :
    (l.set i a).count c + (if b = c then 1 else 0) =
      l.count c + (if a = c then 1 else 0) := by
  induction l generalizing i with
  | nil => simp at h
  | cons x xs ih =>
    cases i with
    | zero =>
      simp only [List.getElem?_cons_zero, Option.some.injEq] at h
      subst h
      simp only [List.set_cons_zero, List.count_cons]
      by_cases hac : a = c <;> by_cases hbc : x = c <;>
        simp [hac, hbc]
    | succ n =>
      simp only [List.getElem?_cons_succ] at h
      simp only [List.set_cons_succ, List.count_cons]
      have := ih n h
      by_cases hxc : x = c <;> simp [hxc] <;> omega

/-- C8: under concurrency limit `K`, no state reachable from the initial
all-pending batch ever has more than `K` jobs in the Running state: the
pool admission guard (worker bound plus the `conta_tpbig` throttle) makes
`runningCount ≤ K` an invariant of every schedule. -/
theorem pool_running_bounded (K n : Nat) (s : List JobPhase)
    (h : PoolReachable K n s) : runningCount s ≤ K := by
  induction h with
  | refl =>
    simp [runningCount, List.count_replicate]
  | @tail b c _ hstep ih =>
    cases hstep with
    | start i hi hK =>
      have hb := count_set_balance b i JobPhase.running JobPhase.pending JobPhase.running hi
      simp only [runningCount] at *
      simp at hb
      omega
    | finish i hi =>
      have hb := count_set_balance b i JobPhase.done JobPhase.running JobPhase.running hi
      simp only [runningCount] at *
      simp at hb
      omega

/-- Witness for C8: the initial two-job batch under limit 1. -/
theorem pool_running_bounded_witness :
    runningCount (List.replicate 2 JobPhase.pending) ≤ 1 :=
  pool_running_bounded 1 2 (List.replicate 2 JobPhase.pending) Relation.ReflTransGen.refl

/-! ## Theorems for C9 -/

/-- C9 counterexample: with the artifact present from the first poll and a
size that grows on every one of the six reads (1, 2, 3, 4, 5, 6), the
stabilization loop never sees two consecutive equal reads, yet
`_wait_for_mat_creation_and_stabilize` still returns success because the
final size is positive — success does not require the size to have been
observed unchanged across two consecutive reads. -/
theorem wait_stabilize_counterexample :
    waitForMatAndStabilize (fun _ => true) growingSizes 1 = Except.ok () ∧
    (∀ i, i < 5 → growingSizes (i + 1) ≠ growingSizes i) ∧
    (∀ i, i < 6 → 0 < growingSizes i) := by
  refine ⟨rfl, by decide, by decide⟩

/-- C9 amended: if the artifact never appears within the poll budget, a
timeout error is raised; once the artifact has appeared, the call succeeds
*iff* the last sampled size is positive — the stability test only ends the
sampling loop early, it is not required for success, and a non-positive
final size yields an error instead of success. -/
theorem wait_stabilize_success_iff (appears : Nat → Bool) (sizes : Nat → Int)
    (maxPolls : Nat) :
    ((∀ k, k < maxPolls → appears k = false) →
      waitForMatAndStabilize appears sizes maxPolls = Except.error WaitErr.timeoutErr) ∧
    (∀ j, firstAppearIdx appears maxPolls = some j →
      (waitForMatAndStabilize appears sizes maxPolls = Except.ok () ↔
        0 < stabilizeLast sizes)) := by
  constructor
  · intro hnone
    have hfind : firstAppearIdx appears maxPolls = none := by
      rw [firstAppearIdx, List.find?_eq_none]
      intro x hx
      rw [hnone x (List.mem_range.mp hx)]
      simp
    rw [waitForMatAndStabilize, hfind]
  · intro j hj
    rw [waitForMatAndStabilize, hj]
    by_cases hle : stabilizeLast sizes ≤ 0
    · rw [if_pos hle]
      constructor
      · intro hcon
        exact Except.noConfusion hcon
      · intro hpos
        omega
    · rw [if_neg hle]
      constructor
      · intro _
        omega
      · intro _
        rfl

/-- Witness for the amended C9: no appearance within a 2-poll budget times
out; an immediately appearing artifact with a constant positive size
succeeds. -/
theorem wait_stabilize_success_iff_witness :
    waitForMatAndStabilize (fun _ => false) (fun _ => 0) 2 =
      Except.error WaitErr.timeoutErr ∧
    (waitForMatAndStabilize (fun _ => true) (fun _ => 7) 1 = Except.ok () ↔
      0 < stabilizeLast (fun _ => 7)) :=
  ⟨(wait_stabilize_success_iff (fun _ => false) (fun _ => 0) 2).1 (fun _ _ => rfl),
    (wait_stabilize_success_iff (fun _ => true) (fun _ => 7) 1).2 0 (by decide)⟩

/-! ## Theorems for C10 -/

/-- C10: before launching the converter, `_run_pl42mat_like_matlab` deletes
every pre-existing `<stem>.mat` / `<stem>.MAT` / `<stem>.Mat` from the
working directory; consequently, when the stale artifacts for this stem are
among those three spellings (the forms an earlier run of the same input
leaves behind), the appearance poll `_find_generated_mat_in_dir` finds
nothing until a fresh artifact is produced. -/
theorem delete_old_mats_prevents_stale_match (dir : List FName) (stem : String)
    (hstale : ∀ p ∈ dir, pyLower p.suffix = ".mat" → pyLower p.stem = pyLower stem →
      p = ⟨stem, ".mat"⟩ ∨ p = ⟨stem, ".MAT"⟩ ∨ p = ⟨stem, ".Mat"⟩) :
    (FName.mk stem ".mat") ∉ deleteOldMats dir stem ∧
    (FName.mk stem ".MAT") ∉ deleteOldMats dir stem ∧
    (FName.mk stem ".Mat") ∉ deleteOldMats dir stem ∧
    findGeneratedMatInDir (deleteOldMats dir stem) stem = none := by
  have hnotmem : ∀ c : FName,
      (c = ⟨stem, ".mat"⟩ ∨ c = ⟨stem, ".MAT"⟩ ∨ c = ⟨stem, ".Mat"⟩) →
      c ∉ deleteOldMats dir stem := by
    intro c hc hmem
    have hpred := (List.mem_filter.mp hmem).2
    simp only [Bool.not_eq_true', decide_eq_false_iff_not] at hpred
    exact hpred hc
  have hany : ∀ c : FName,
      (c = ⟨stem, ".mat"⟩ ∨ c = ⟨stem, ".MAT"⟩ ∨ c = ⟨stem, ".Mat"⟩) →
      (deleteOldMats dir stem).any (fun p => decide (p = c)) = false := by
    intro c hc
    rw [List.any_eq_false]
    intro p hp
    simp only [decide_eq_true_eq]
    intro hpc
    exact hnotmem c hc (hpc ▸ hp)
  refine ⟨hnotmem _ (Or.inl rfl), hnotmem _ (Or.inr (Or.inl rfl)),
    hnotmem _ (Or.inr (Or.inr rfl)), ?_⟩
  rw [findGeneratedMatInDir]
  have hfind1 : (([⟨stem, ".mat"⟩, ⟨stem, ".MAT"⟩, ⟨stem, ".Mat"⟩] : List FName).find?
      (fun c => (deleteOldMats dir stem).any (fun p => decide (p = c)))) = none := by
    rw [List.find?_eq_none]
    intro c hc
    simp only [List.mem_cons, List.not_mem_nil, or_false] at hc
    rw [hany c (by tauto)]
    simp
  rw [hfind1]
  rw [List.find?_eq_none]
  intro p hp
  simp only [decide_eq_true_eq, not_and]
  intro hsuf hstm
  have hpd : p ∈ dir := (List.mem_filter.mp hp).1
  exact (hnotmem p (hstale p hpd hsuf hstm)) hp

/-- Witness for C10: a directory holding a stale `x.MAT` and an unrelated
`y.mat`, stem `x`. -/
theorem delete_old_mats_prevents_stale_match_witness :
    (∀ p ∈ ([⟨"x", ".MAT"⟩, ⟨"y", ".mat"⟩] : List FName),
      pyLower p.suffix = ".mat" → pyLower p.stem = pyLower "x" →
      p = ⟨"x", ".mat"⟩ ∨ p = ⟨"x", ".MAT"⟩ ∨ p = ⟨"x", ".Mat"⟩) ∧
    findGeneratedMatInDir
      (deleteOldMats ([⟨"x", ".MAT"⟩, ⟨"y", ".mat"⟩] : List FName) "x") "x" = none :=
  ⟨by decide,
    (delete_old_mats_prevents_stale_match [⟨"x", ".MAT"⟩, ⟨"y", ".mat"⟩] "x"
      (by decide)).2.2.2⟩

end AutomatizaSimuATP
